import Mathlib

/-!
Verification of the AstraPlay provider aggregation and transfer-resolution
pipeline against its natural-language specification.

The TypeScript sources are shallowly embedded:

* `electron/providers/debrid/real-debrid.ts` — the Real-Debrid acceleration
  backend (`authenticate`, `checkStatus`, `getStreamUrl`,
  `mapTorrentToTransfer`).  Remote HTTP calls are modelled by passing the
  settled outcome of the call (`Except String _`) as an explicit argument;
  the mutable session fields of the class become an explicit state record.
* `electron/providers/scrapers/limetorrents-scraper.ts` — the LimeTorrents
  search backend (`searchEpisode`, `parseSearchResults`, `parseSize`,
  `buildMagnetUri`, `extractInfoHashFromLink`, `extractQuality`).  The
  cheerio row selection is abstracted into a `LimeRow` record carrying the
  text fields the scraper reads from one result row.
* `electron/main/ipc-handlers.ts` — the `torrent:search` aggregation
  handler; each registered scraper is modelled by its enabled flag together
  with the settled outcome of its `search` call.

JavaScript numbers are modelled faithfully: integers as `Int`/`Nat`, and
`parseFloat` results as IEEE-754 binary64 values — `roundToDouble` rounds
the exact decimal value to the nearest double (half to even), carried
exactly as a rational, with `NaN` and the overflow to Infinity explicit in
`JsNumber`.  Object-literal bracket lookup is modelled including the
`Object.prototype` chain (`mapStatusJS`).  JavaScript string truthiness
(`undefined`/`""` are falsy) is modelled by `jsTruthyStr`.
`Array.prototype.sort` with the comparator `(a, b) => b.seeders -
a.seeders` is a stable descending sort (ES2019 requires sort stability),
embedded as a stable insertion sort.
-/

namespace AstraPlay

/-! ### JavaScript primitives -/

/-- Truthiness of an optional JS string: `undefined` and `""` are falsy. -/
def jsTruthyStr : Option String → Bool
  | none => false
  | some s => s != ""

/-- JS `parseInt` (radix 10) on the strings this code feeds it: optional
sign followed by decimal digits; `none` models `NaN`.  (Leading whitespace
and `0x` prefixes never occur at the call sites modelled here.) -/
def parseIntJS (s : String) : Option Int :=
  match s.data with
  | '-' :: rest => (digitsVal (rest.takeWhile Char.isDigit)).map (fun n => -(n : Int))
  | '+' :: rest => (digitsVal (rest.takeWhile Char.isDigit)).map (fun n => (n : Int))
  | l => (digitsVal (l.takeWhile Char.isDigit)).map (fun n => (n : Int))
where
  /-- Value of a nonempty digit run; `none` when there are no digits. -/
  digitsVal (ds : List Char) : Option Nat :=
    if ds.isEmpty then none else some (ds.foldl (fun n c => 10 * n + (c.toNat - 48)) 0)

/-- JS `parseInt(x) || 0`: `NaN` collapses to `0` (and `0 || 0 = 0`). -/
def parseIntOr0 (s : String) : Int := (parseIntJS s).getD 0

/-- Round a rational to an integer, half to even (the IEEE-754 default
rounding applied to the scaled significand). -/
def roundHalfEven (x : ℚ) : Int :=
  if x - ⌊x⌋ < 1 / 2 then ⌊x⌋
  else if 1 / 2 < x - ⌊x⌋ then ⌊x⌋ + 1
  else if ⌊x⌋ % 2 = 0 then ⌊x⌋ else ⌊x⌋ + 1

/-- The IEEE-754 binary64 value nearest to a nonnegative rational (round
half to even), represented exactly as a rational: the value is scaled into
the integer significand range (53 bits below the leading binade, clamped
at the subnormal exponent floor `2^(-1074)`), rounded, and scaled back.
Values of `2^1024` or more stand for an overflow to Infinity; callers
compare the result against that bound. -/
def roundToDouble (q : ℚ) : ℚ :=
  if q ≤ 0 then 0
  else
    let e : Int := max (Int.log 2 q - 52) (-1074)
    (roundHalfEven (q / (2 : ℚ) ^ e) : ℚ) * (2 : ℚ) ^ e

/-- A JavaScript number as this pipeline produces one: `NaN`, `Infinity`,
or a finite binary64 value carried exactly as a rational. -/
inductive JsNumber where
  | nan
  | inf
  | finite (q : ℚ)
deriving DecidableEq, Repr

/-! ### Shared result model (`src/types/provider.ts`) -/

/-- `DebridTransfer['status']` from `src/types/provider.ts`. -/
inductive TransferStatus where
  | queued
  | downloading
  | processing
  | ready
  | error
deriving DecidableEq, Repr

/-- `DebridFile` from `src/types/provider.ts`. -/
structure DebridFile where
  id : String
  name : String
  size : Int
  streamUrl : Option String
deriving DecidableEq, Repr

/-- `DebridTransfer` from `src/types/provider.ts`. -/
structure DebridTransfer where
  id : String
  magnetUri : String
  name : String
  status : TransferStatus
  progress : Int
  files : List DebridFile
  error : Option String
deriving DecidableEq, Repr

/-- `ProviderAccount` from `src/types/provider.ts` (the wall-clock
`createdAt`/`updatedAt` timestamps are outside the model). -/
structure ProviderAccount where
  id : String
  providerId : String
  username : Option String
  email : Option String
  premium : Bool
  expiresAt : Option String
deriving DecidableEq, Repr

/-- `ProviderStatus` from `src/types/provider.ts`. -/
structure ProviderStatus where
  online : Bool
  premium : Bool
  expiresAt : Option String
deriving DecidableEq, Repr

/-- `DebridCredentials` from `src/types/provider.ts`. -/
structure DebridCredentials where
  apiKey : Option String
  accessToken : Option String
  refreshToken : Option String
deriving DecidableEq, Repr

/-! ### Real-Debrid backend (`electron/providers/debrid/real-debrid.ts`) -/

/-- `RealDebridUser` response shape. -/
structure RealDebridUser where
  id : Int
  username : String
  email : String
  premium : Int
  expiration : String
deriving DecidableEq, Repr

/-- One entry of `RealDebridTorrent.files`. -/
structure RealDebridFile where
  id : Int
  path : String
  bytes : Int
  selected : Int
deriving DecidableEq, Repr

/-- `RealDebridTorrent` response shape (`/torrents/info/{id}`). -/
structure RealDebridTorrent where
  id : String
  filename : String
  hash : String
  bytes : Int
  status : String
  added : String
  links : List String
  ended : Option String
  progress : Int
  files : Option (List RealDebridFile)
deriving DecidableEq, Repr

/-- The `statusMap` object literal inside `mapTorrentToTransfer`. -/
def realDebridStatusTable : List (String × TransferStatus) :=
  [("magnet_error", .error),
   ("magnet_conversion", .queued),
   ("waiting_files_selection", .queued),
   ("queued", .queued),
   ("downloading", .downloading),
   ("downloaded", .ready),
   ("error", .error),
   ("virus", .error),
   ("dead", .error)]

/-- The TypeScript-typed view of `statusMap[torrent.status] || 'queued'`:
own-key lookup with fallback to `'queued'` (all own values are truthy
strings).  This view is accurate exactly for remote status strings that do
not collide with a property `statusMap` inherits from `Object.prototype`;
the full JavaScript lookup semantics, including the prototype chain, is
`mapStatusJS` below. -/
def mapStatus (s : String) : TransferStatus :=
  (realDebridStatusTable.lookup s).getD .queued

/-- The property names every plain object literal inherits from
`Object.prototype`; a bracket lookup on `statusMap` with any of these
yields the inherited function (or, for `__proto__`, the prototype object),
all of them truthy. -/
def objectProtoKeys : List String :=
  ["constructor", "hasOwnProperty", "isPrototypeOf", "propertyIsEnumerable",
   "toLocaleString", "toString", "valueOf", "__defineGetter__", "__defineSetter__",
   "__lookupGetter__", "__lookupSetter__", "__proto__"]

/-- Runtime value of `statusMap[s] || 'queued'`: either one of the status
strings of the `DebridTransfer['status']` union, or a truthy non-string
value inherited from `Object.prototype` that the `|| 'queued'` fallback
does not replace (the TypeScript annotation is not enforced at runtime). -/
inductive StatusLookup where
  | status (v : TransferStatus)
  | protoValue (key : String)
deriving DecidableEq, Repr

/-- `statusMap[s] || 'queued'` under full JavaScript property-lookup
semantics: an own key of the object literal yields its status string; a
key inherited from `Object.prototype` yields that truthy non-string value,
so the `||` fallback does not fire; any other key yields `undefined`,
replaced by `'queued'`. -/
def mapStatusJS (s : String) : StatusLookup :=
  match realDebridStatusTable.lookup s with
  | some v => .status v
  | none => if s ∈ objectProtoKeys then .protoValue s else .status .queued

/-- The value `mapTorrentToTransfer` actually stores in the `status` field
of the transfer it produces, under full JavaScript semantics. -/
def transferStatusJS (torrent : RealDebridTorrent) : StatusLookup :=
  mapStatusJS torrent.status

/-- `RealDebridProvider.mapTorrentToTransfer`.  Note the returned record
literal carries no `error` field, so the optional `error` detail of
`DebridTransfer` is always absent. -/
def mapTorrentToTransfer (torrent : RealDebridTorrent) : DebridTransfer :=
  { id := torrent.id
    magnetUri := "magnet:?xt=urn:btih:" ++ torrent.hash
    name := torrent.filename
    status := mapStatus torrent.status
    progress := torrent.progress
    files := (torrent.files.getD []).map (fun f =>
      { id := toString f.id, name := f.path, size := f.bytes, streamUrl := none })
    error := none }

/-- Mutable session state of `RealDebridProvider`: the `apiKey` and
`account` instance fields. -/
structure RDState where
  apiKey : Option String
  account : Option ProviderAccount
deriving DecidableEq, Repr

/-- Session state of a freshly constructed provider. -/
def rdInit : RDState := { apiKey := none, account := none }

/-- `RealDebridProvider.authenticate`.  `remote` is the settled outcome of
`GET /user` performed with the just-stored key.  The `catch` block clears
`this.apiKey` (but not `this.account`) and `handleError` rethrows. -/
def authenticate (st : RDState) (creds : DebridCredentials)
    (remote : Except String RealDebridUser) : RDState × Except String ProviderAccount :=
  if jsTruthyStr creds.apiKey = false then
    ({ st with apiKey := none },
     .error "API key is required for Real-Debrid authentication")
  else
    match remote with
    | .error e => ({ st with apiKey := none }, .error e)
    | .ok user =>
      let acct : ProviderAccount :=
        { id := toString user.id
          providerId := "real-debrid"
          username := some user.username
          email := some user.email
          premium := decide (0 < user.premium)
          expiresAt := some user.expiration }
      ({ apiKey := creds.apiKey, account := some acct }, .ok acct)

/-- `RealDebridProvider.checkStatus`.  `remote` is the settled outcome of
`GET /user`; it is only issued when a key is present. -/
def checkStatus (st : RDState) (remote : Except String RealDebridUser) :
    Except String ProviderStatus :=
  if jsTruthyStr st.apiKey = false then
    .error "Not authenticated with Real-Debrid"
  else
    match remote with
    | .error e => .error e
    | .ok user =>
      .ok { online := true
            premium := decide (0 < user.premium)
            expiresAt := some user.expiration }

/-- List-level check that `s` ends with `sfx` (both already case-folded by
the caller when needed). -/
def chHasPfx : List Char → List Char → Bool
  | [], _ => true
  | _ :: _, [] => false
  | p :: ps, c :: cs => p == c && chHasPfx ps cs

/-- `s` ends with `sfx` as lists of characters. -/
def endsWithList (s sfx : List Char) : Bool := chHasPfx sfx.reverse s.reverse

/-- The fixed video-extension alternation of the regex in `getStreamUrl`. -/
def videoExts : List String := ["mp4", "mkv", "avi", "mov", "wmv", "flv", "webm"]

/-- `/\.(mp4|mkv|avi|mov|wmv|flv|webm)$/i.test(path)`: the path,
case-folded, ends in a dot followed by one of the fixed extensions. -/
def isVideoPath (path : String) : Bool :=
  videoExts.any (fun e => endsWithList (path.data.map Char.toLower) ('.' :: e.data))

/-- `videoFiles.reduce((prev, current) => current.bytes > prev.bytes ? current : prev)`:
`reduce` without an initial value starts from the first element. -/
def largestVideoFile (v0 : RealDebridFile) (vs : List RealDebridFile) : RealDebridFile :=
  vs.foldl (fun prev current => if current.bytes > prev.bytes then current else prev) v0

/-- `f.id === parseInt(fileId)`: comparison with `NaN` is always false. -/
def fileIdMatches (fid : String) (f : RealDebridFile) : Bool :=
  match parseIntJS fid with
  | some n => decide (f.id = n)
  | none => false

/-- The `linkToUnrestrict` selection of `getStreamUrl` (lines 197–218 of
`real-debrid.ts`), given the first link `link0 = torrent.links[0]`.
`findIdx` returns the list length when nothing matches, which corresponds
to the `!== -1` checks of the source. -/
def chooseLink (torrent : RealDebridTorrent) (fileId : Option String) (link0 : String) :
    String :=
  if jsTruthyStr fileId = true ∧ torrent.files ≠ none then
    let fs := torrent.files.getD []
    let fileIndex := fs.findIdx (fileIdMatches (fileId.getD ""))
    if fileIndex < fs.length ∧ fileIndex < torrent.links.length then
      torrent.links.getD fileIndex link0
    else link0
  else if torrent.files ≠ none ∧ (torrent.files.getD []).length > 1 then
    let fs := torrent.files.getD []
    match fs.filter (fun f => isVideoPath f.path) with
    | [] => link0
    | v0 :: vs =>
      let lv := largestVideoFile v0 vs
      let videoIndex := fs.findIdx (fun g => decide (g = lv))
      if videoIndex < fs.length ∧ videoIndex < torrent.links.length then
        torrent.links.getD videoIndex link0
      else link0
  else link0

/-- Outcome of one `getStreamUrl` call.  The three failure constructors are
the `throw` sites reached before the `POST /unrestrict/link` request;
`unrestricted link` means exactly one unrestrict request is issued for
`link` and the remote's `download` field is returned as the stream URL. -/
inductive StreamUrlOutcome where
  | notAuthenticated
  | notReady (status : String)
  | noLinks
  | unrestricted (link : String)
deriving DecidableEq, Repr

/-- Number of `POST /unrestrict/link` requests an outcome stands for. -/
def unrestrictCallCount : StreamUrlOutcome → Nat
  | .unrestricted _ => 1
  | _ => 0

/-- `RealDebridProvider.getStreamUrl`, given the session key and the
`/torrents/info/{transferId}` response body `torrent`. -/
def getStreamUrl (apiKey : Option String) (torrent : RealDebridTorrent)
    (fileId : Option String) : StreamUrlOutcome :=
  if jsTruthyStr apiKey = false then .notAuthenticated
  else if torrent.status ≠ "downloaded" then .notReady torrent.status
  else
    match torrent.links with
    | [] => .noLinks
    | link0 :: _ => .unrestricted (chooseLink torrent fileId link0)

/-! ### LimeTorrents scraper (`electron/providers/scrapers/limetorrents-scraper.ts`) -/

/-- `TorrentResult` from `src/types/provider.ts`.  `size` is the result of
`parseSize` (a JS number), `uploadDate` carries the raw date text handed
to `new Date(...)`. -/
structure TorrentResult where
  id : String
  name : String
  size : JsNumber
  seeders : Int
  leechers : Int
  magnetUri : String
  infoHash : String
  uploadDate : Option String
  quality : Option String
  source : Option String
  providerId : String
deriving DecidableEq, Repr

/-- The text fields the scraper reads from one `.table2 tbody tr` row
(each already `.trim()`ed, exactly as in `parseSearchResults`). -/
structure LimeRow where
  name : String
  torrentLink : Option String
  sizeText : String
  seedersText : String
  leechersText : String
  dateText : String
deriving DecidableEq, Repr

/-- Character class `[A-F0-9]` of the info-hash regex under the `i` flag. -/
def hexClass (c : Char) : Bool :=
  c.isDigit || ('A' ≤ c && c ≤ 'F') || ('a' ≤ c && c ≤ 'f')

/-- Leftmost match of `/\/([A-F0-9]{40})\//i`: at each position require a
slash, exactly 40 hex-class characters, then a slash; on failure advance
one character. -/
def extractHashAt : List Char → Option (List Char)
  | [] => none
  | c :: rest =>
    if c = '/' ∧ (rest.take 40).length = 40 ∧ (rest.take 40).all hexClass ∧
        (rest.drop 40).head? = some '/' then
      some (rest.take 40)
    else extractHashAt rest

/-- `extractInfoHashFromLink`: regex capture lower-cased, `undefined` when
the link is absent or the pattern does not occur. -/
def extractInfoHashFromLink (link : Option String) : Option String :=
  link.bind fun l => (extractHashAt l.data).map fun h => String.mk (h.map Char.toLower)

/-- Character class `[\d.]` of the size regex. -/
def sizeClass (c : Char) : Bool := c.isDigit || c == '.'

/-- Binary multipliers of the `multipliers` record, keyed by the upper-cased
unit (`multipliers[unit] || 0` never falls through: the regex only
produces these four units). -/
def unitMult (u : String) : Option ℚ :=
  if u = "TB" then some (1024 ^ 4)
  else if u = "GB" then some (1024 ^ 3)
  else if u = "MB" then some (1024 ^ 2)
  else if u = "KB" then some 1024
  else none

/-- The `(GB|MB|KB|TB)` alternation under the `i` flag: the next two
characters, upper-cased, must be one of the four units. -/
def matchUnit : List Char → Option ℚ
  | c1 :: c2 :: _ => unitMult (String.mk [c1.toUpper, c2.toUpper])
  | _ => none

/-- Anchored attempt of `/([\d.]+)\s*(GB|MB|KB|TB)/i` at the current
position: a greedy `[\d.]+` run, optional whitespace, then a unit.
(Backtracking inside the run can never help: units start with a letter,
which is neither in `[\d.]` nor whitespace.) -/
def tryMatchAt : List Char → Option (List Char × ℚ)
  | [] => none
  | c :: cs =>
    if sizeClass c then
      (matchUnit ((cs.dropWhile sizeClass).dropWhile Char.isWhitespace)).map
        (fun m => (c :: cs.takeWhile sizeClass, m))
    else none

/-- Leftmost match of the size regex: try each position left to right. -/
def findSizeMatch : List Char → Option (List Char × ℚ)
  | [] => none
  | c :: cs =>
    match tryMatchAt (c :: cs) with
    | some r => some r
    | none => findSizeMatch cs

/-- Exact mathematical value of a `[\d.]+` capture as `parseFloat` reads
it: leading digits, an optional fraction after the first dot, anything
after a second dot ignored; `none` when there are no digits at all (the
`NaN` case).  This is only the exact decimal value; the rounding to an
IEEE-754 double that `parseFloat` performs is applied by `parseFloatJS`. -/
def decimalValueQ (cs : List Char) : Option ℚ :=
  let ds := cs.takeWhile Char.isDigit
  let rest := cs.dropWhile Char.isDigit
  if rest.head? = some '.' then
    let fs := (rest.drop 1).takeWhile Char.isDigit
    if ds.isEmpty ∧ fs.isEmpty then none
    else some ((digitsNatVal ds : ℚ) + (digitsNatVal fs : ℚ) / 10 ^ fs.length)
  else if ds.isEmpty then none else some (digitsNatVal ds)
where
  /-- Decimal value of a digit run. -/
  digitsNatVal (ds : List Char) : Nat := ds.foldl (fun n c => 10 * n + (c.toNat - 48)) 0

/-- `parseFloat` on a `[\d.]+` capture: the exact decimal value rounded
to the nearest binary64 double, overflowing to Infinity at `2^1024`;
`NaN` when the capture holds no digits. -/
def parseFloatJS (cs : List Char) : JsNumber :=
  match decimalValueQ cs with
  | none => .nan
  | some v =>
    if (2 : ℚ) ^ 1024 ≤ roundToDouble v then .inf else .finite (roundToDouble v)

/-- Multiplication of a JS number by one of the `1024^k` multipliers:
scaling a finite double by a power of two only shifts its exponent, so it
is exact in IEEE-754 except for the overflow to Infinity at `2^1024`. -/
def mulPow1024 (x : JsNumber) (mult : ℚ) : JsNumber :=
  match x with
  | .nan => .nan
  | .inf => .inf
  | .finite q => if (2 : ℚ) ^ 1024 ≤ q * mult then .inf else .finite (q * mult)

/-- `parseSize`: `0` when the regex finds no match, otherwise
`parseFloat(match[1]) * multipliers[match[2].toUpperCase()]` in JS number
(binary64) arithmetic. -/
def parseSize (sizeText : String) : JsNumber :=
  match findSizeMatch sizeText.data with
  | none => .finite 0
  | some (run, mult) => mulPow1024 (parseFloatJS run) mult

/-- Unreserved characters of `encodeURIComponent`
(`A–Z a–z 0–9 - _ . ! ~ * ' ( )`). -/
def isUnreservedURI (c : Char) : Bool :=
  c.isAlphanum || c == '-' || c == '_' || c == '.' || c == '!' || c == '~' ||
    c == '*' || c == Char.ofNat 39 || c == '(' || c == ')'

/-- Upper-case hex digit of a nibble. -/
def hexDigitUpper (n : Nat) : Char :=
  if n < 10 then Char.ofNat (48 + n) else Char.ofNat (55 + n)

/-- UTF-8 bytes of a unicode scalar value. -/
def utf8Bytes (n : Nat) : List Nat :=
  if n < 0x80 then [n]
  else if n < 0x800 then [0xC0 + n / 64, 0x80 + n % 64]
  else if n < 0x10000 then [0xE0 + n / 4096, 0x80 + n / 64 % 64, 0x80 + n % 64]
  else [0xF0 + n / 262144, 0x80 + n / 4096 % 64, 0x80 + n / 64 % 64, 0x80 + n % 64]

/-- `encodeURIComponent`: unreserved characters kept, all others
percent-encoded per UTF-8 byte with upper-case hex. -/
def encodeURIComponent (s : String) : String :=
  String.mk (s.data.foldr (fun c acc =>
    (if isUnreservedURI c then [c]
     else (utf8Bytes c.toNat).foldr (fun b bacc =>
       '%' :: hexDigitUpper (b / 16) :: hexDigitUpper (b % 16) :: bacc) []) ++ acc) [])

/-- The fixed announce-tracker list of `buildMagnetUri`. -/
def magnetTrackers : List String :=
  ["udp://tracker.opentrackr.org:1337/announce",
   "udp://open.stealth.si:80/announce",
   "udp://tracker.torrent.eu.org:451/announce",
   "udp://tracker.bittor.pw:1337/announce",
   "udp://public.popcorn-tracker.org:6969/announce"]

/-- `trackers.map(t => '&tr=' + encodeURIComponent(t)).join('')`. -/
def trackerQuery : String :=
  String.join (magnetTrackers.map (fun t => "&tr=" ++ encodeURIComponent t))

/-- `buildMagnetUri`. -/
def buildMagnetUri (infoHash name : String) : String :=
  "magnet:?xt=urn:btih:" ++ infoHash ++ "&dn=" ++ encodeURIComponent name ++ trackerQuery

/-- `parseDate`: `undefined` for empty or `"-"` text; otherwise the text
handed to `new Date(...)` (the resulting timestamp value is external to
this model, so the raw text is carried). -/
def parseDate (dateText : String) : Option String :=
  if dateText = "" ∨ dateText = "-" then none else some dateText

/-- `needle` occurs as a contiguous substring of `hay` (JS `includes`). -/
def hasSub (needle : List Char) : List Char → Bool
  | [] => chHasPfx needle []
  | c :: cs => chHasPfx needle (c :: cs) || hasSub needle cs

/-- The fixed ordered quality list of `extractQuality`. -/
def qualityTags : List String := ["2160p", "1080p", "720p", "480p", "360p"]

/-- `extractQuality`: first quality tag whose upper-cased form occurs in the
upper-cased name, else `2160p` for a `4K`/`UHD` substring, else none. -/
def extractQuality (name : String) : Option String :=
  let nameUpper := name.data.map Char.toUpper
  match qualityTags.find? (fun q => hasSub (q.data.map Char.toUpper) nameUpper) with
  | some q => some q
  | none =>
    if hasSub "4K".data nameUpper || hasSub "UHD".data nameUpper then some "2160p"
    else none

/-- Per-row body of the `.each` callback in `parseSearchResults`: rows with
an empty title or no extractable info hash are skipped. -/
def parseRow (row : LimeRow) : Option TorrentResult :=
  if row.name = "" then none
  else
    match extractInfoHashFromLink row.torrentLink with
    | none => none
    | some infoHash =>
      some { id := infoHash
             name := row.name
             size := parseSize row.sizeText
             seeders := parseIntOr0 row.seedersText
             leechers := parseIntOr0 row.leechersText
             magnetUri := buildMagnetUri infoHash row.name
             infoHash := infoHash
             uploadDate := parseDate row.dateText
             quality := extractQuality row.name
             source := some "limetorrents"
             providerId := "limetorrents" }

/-- Stable insertion step for the descending-by-seeders sort: on ties the
element already being inserted (originally earlier) goes first. -/
def insertDesc (x : TorrentResult) : List TorrentResult → List TorrentResult
  | [] => [x]
  | y :: ys => if x.seeders ≥ y.seeders then x :: y :: ys else y :: insertDesc x ys

/-- `results.sort((a, b) => b.seeders - a.seeders)`: ES2019 sort is stable,
and a stable descending sort by one key is uniquely determined, so it is
embedded as stable insertion sort. -/
def sortBySeedersDesc (l : List TorrentResult) : List TorrentResult :=
  l.foldr insertDesc []

/-- `parseSearchResults` on the extracted rows: collect the parsed rows in
order, then sort descending by seeders. -/
def parseSearchResults (rows : List LimeRow) : List TorrentResult :=
  sortBySeedersDesc (rows.filterMap parseRow)

/-- The search-page URL built by `search`. -/
def searchUrl (query : String) : String :=
  "https://www.limetorrents.lol" ++ "/search/all/" ++ encodeURIComponent query ++ "/seeds/1/"

/-- The `mediaType` argument (`'movie' | 'series'`); `search` ignores it. -/
inductive MediaType where
  | movie
  | series
deriving DecidableEq, Repr

/-- `LimeTorrentsScraperProvider.search`: fetch the search page for the
URL-encoded query and parse it.  `remote` maps a URL to the rows of the
returned page. -/
def limeSearch (query : String) (_mediaType : MediaType)
    (remote : String → List LimeRow) : List TorrentResult :=
  parseSearchResults (remote (searchUrl query))

/-- JS `String.prototype.padStart(2, '0')`. -/
def padStart2 (s : String) : String :=
  if 2 ≤ s.length then s else String.mk (List.replicate (2 - s.length) '0') ++ s

/-- The query synthesized by `searchEpisode`:
``` `${seriesName} S${String(season).padStart(2, '0')}E${String(episode).padStart(2, '0')}` ```. -/
def episodeQuery (seriesName : String) (season episode : Nat) : String :=
  seriesName ++ " S" ++ padStart2 (Nat.repr season) ++ "E" ++ padStart2 (Nat.repr episode)

/-- `LimeTorrentsScraperProvider.searchEpisode`: a derived call to `search`
with the synthesized query and media type `'series'`. -/
def searchEpisode (seriesName : String) (season episode : Nat)
    (remote : String → List LimeRow) : List TorrentResult :=
  limeSearch (episodeQuery seriesName season episode) MediaType.series remote

/-! ### The `torrent:search` IPC handler (`electron/main/ipc-handlers.ts`) -/

instance {ε α : Type} [DecidableEq ε] [DecidableEq α] : DecidableEq (Except ε α)
  | .error e, .error f =>
    if h : e = f then .isTrue (by rw [h]) else .isFalse (by intro hh; cases hh; exact h rfl)
  | .error _, .ok _ => .isFalse (by intro hh; cases hh)
  | .ok _, .error _ => .isFalse (by intro hh; cases hh)
  | .ok x, .ok y =>
    if h : x = y then .isTrue (by rw [h]) else .isFalse (by intro hh; cases hh; exact h rfl)

/-- One registered scraper as the handler observes it: its `enabled` flag
and the settled outcome (`Promise.allSettled`) of its `search` call. -/
structure ScraperSim where
  enabled : Bool
  result : Except String (List TorrentResult)
deriving DecidableEq, Repr

/-- The fulfilled outcomes of the enabled scrapers, concatenated in
registration order: `results.filter(fulfilled).flatMap(r => r.value)`. -/
def mergedSuccesses (scrapers : List ScraperSim) : List TorrentResult :=
  (((scrapers.filter (·.enabled)).map (·.result)).filterMap Except.toOption).flatten

/-- The `torrent:search` handler body: throw when no enabled scraper
exists, otherwise settle all enabled scrapers' searches, keep the
fulfilled ones, concatenate and sort descending by seeders. -/
def torrentSearchHandler (scrapers : List ScraperSim) :
    Except String (List TorrentResult) :=
  if (scrapers.filter (·.enabled)).length = 0 then .error "No scrapers available"
  else .ok (sortBySeedersDesc (mergedSuccesses scrapers))

/-! ### Reference definitions taken from the specification's words -/

/-- Characters after the first `?`, or `none` when there is no `?`. -/
def afterQuestion : List Char → Option (List Char)
  | [] => none
  | c :: rest => if c = '?' then some rest else afterQuestion rest

/-- Split a query string on every `&`. -/
def splitAmp : List Char → List (List Char)
  | [] => [[]]
  | c :: rest =>
    if c = '&' then [] :: splitAmp rest
    else
      match splitAmp rest with
      | [] => [[c]]
      | p :: ps => (c :: p) :: ps

/-- Modelled from the spec: the repository builds magnet URIs but contains
no magnet-URI parser, so "parsing the URI's `xt` parameter" is taken from
the spec's words — the value of the first `xt=` query parameter, with its
`urn:btih:` prefix stripped, is the recovered content hash. -/
def parseXtParam (uri : String) : Option String :=
  (afterQuestion uri.data).bind fun query =>
    ((splitAmp query).find? (fun p => chHasPfx ['x', 't', '='] p)).bind fun p =>
      let v := p.drop 3
      if chHasPfx ['u', 'r', 'n', ':', 'b', 't', 'i', 'h', ':'] v then
        some (String.mk (v.drop 9))
      else none

/-- Modelled from the spec: the `S%02dE%02d` padding — the decimal
representation padded on the left with `'0'` to a minimum width of two. -/
def sprintf02d (n : Nat) : String :=
  String.mk (List.replicate (2 - (Nat.repr n).length) '0') ++ Nat.repr n

/-! ### List helper lemmas -/

theorem takeWhile_append_all {α : Type} (p : α → Bool) {xs : List α} (ys : List α)
    (h : ∀ x ∈ xs, p x = true) : (xs ++ ys).takeWhile p = xs ++ ys.takeWhile p := by
  induction xs with
  | nil => simp
  | cons c cs ih =>
    simp only [List.cons_append, List.takeWhile_cons, h c (List.mem_cons_self c cs)]
    simp [ih (fun x hx => h x (List.mem_cons_of_mem c hx))]

theorem dropWhile_append_all {α : Type} (p : α → Bool) {xs : List α} (ys : List α)
    (h : ∀ x ∈ xs, p x = true) : (xs ++ ys).dropWhile p = ys.dropWhile p := by
  induction xs with
  | nil => simp
  | cons c cs ih =>
    simp only [List.cons_append, List.dropWhile_cons, h c (List.mem_cons_self c cs)]
    simp [ih (fun x hx => h x (List.mem_cons_of_mem c hx))]

theorem takeWhile_all {α : Type} (p : α → Bool) {l : List α}
    (h : ∀ x ∈ l, p x = true) : l.takeWhile p = l := by
  have := takeWhile_append_all p ([] : List α) h
  simpa using this

theorem dropWhile_all {α : Type} (p : α → Bool) {l : List α}
    (h : ∀ x ∈ l, p x = true) : l.dropWhile p = [] := by
  have := dropWhile_append_all p ([] : List α) h
  simpa using this

theorem findIdx_all_false {α : Type} (p : α → Bool) {l : List α}
    (h : ∀ x ∈ l, p x = false) : l.findIdx p = l.length := by
  induction l with
  | nil => rfl
  | cons c cs ih =>
    simp only [List.findIdx_cons, h c (List.mem_cons_self c cs), cond_false, List.length_cons]
    simp [ih (fun x hx => h x (List.mem_cons_of_mem c hx))]

theorem findIdx_eq_lt_of_mem {α : Type} [DecidableEq α] {a : α} {l : List α}
    (h : a ∈ l) : l.findIdx (fun g => decide (g = a)) < l.length := by
  induction l with
  | nil => cases h
  | cons c cs ih =>
    by_cases hc : c = a
    · simp [List.findIdx_cons, hc]
    · rcases List.mem_cons.mp h with h1 | h2
      · exact absurd h1.symm hc
      · have hd : (decide (c = a)) = false := by simp [hc]
        simp only [List.findIdx_cons, hd, cond_false, List.length_cons]
        exact Nat.succ_lt_succ (ih h2)

/-! ### Claim theorems -/

/-- Claim C4 (counterexample): a remote torrent in the `virus` state maps to
a `Transfer` with `status = error` whose error detail is absent, refuting
"`status == error` implies the error detail field is non-empty". -/
theorem c4_counterexample :
    (mapTorrentToTransfer
      { id := "V", filename := "bad", hash := "00", bytes := 0, status := "virus",
        added := "", links := [], ended := none, progress := 0, files := none }).status =
        TransferStatus.error ∧
    (mapTorrentToTransfer
      { id := "V", filename := "bad", hash := "00", bytes := 0, status := "virus",
        added := "", links := [], ended := none, progress := 0, files := none }).error =
        none := by
  constructor <;> rfl

/-- Claim C4 (amended): `mapTorrentToTransfer` never sets the error detail —
every produced `Transfer` has `error = none`, in particular also those whose
status is `error` (exactly the remote states `magnet_error`, `error`,
`virus`, `dead`). -/
theorem c4_error_detail_never_set (t : RealDebridTorrent) :
    (mapTorrentToTransfer t).error = none ∧
    ((mapTorrentToTransfer t).status = TransferStatus.error ↔
      (t.status = "magnet_error" ∨ t.status = "error" ∨ t.status = "virus" ∨
        t.status = "dead")) := by
  refine ⟨rfl, ?_⟩
  show mapStatus t.status = TransferStatus.error ↔ _
  unfold mapStatus realDebridStatusTable
  simp only [List.lookup]
  repeat' split
  all_goals simp_all [beq_iff_eq]

/-- Helper: every value the Real-Debrid status table can yield. -/
theorem lookup_status_table_cases {s : String} {v : TransferStatus}
    (h : realDebridStatusTable.lookup s = some v) :
    v = TransferStatus.queued ∨ v = TransferStatus.downloading ∨
      v = TransferStatus.ready ∨ v = TransferStatus.error := by
  unfold realDebridStatusTable at h
  simp only [List.lookup] at h
  repeat' split at h
  all_goals simp_all

/-- A transfer whose remote status collides with an `Object.prototype`
property name. -/
def c10Torrent : RealDebridTorrent :=
  { id := "X", filename := "f", hash := "00", bytes := 0, status := "toString",
    added := "", links := [], ended := none, progress := 0, files := none }

/-- Claim C10 (counterexample): the remote status string `toString` is
outside the fixed translation table, yet the transfer's status is not
`queued` — the bracket lookup finds the truthy `Object.prototype.toString`
function and the `|| 'queued'` fallback never fires, refuting "every
string outside the fixed translation table is mapped to queued". -/
theorem c10_counterexample :
    realDebridStatusTable.lookup c10Torrent.status = none ∧
    transferStatusJS c10Torrent = StatusLookup.protoValue "toString" ∧
    transferStatusJS c10Torrent ≠ StatusLookup.status TransferStatus.queued := by
  refine ⟨rfl, ?_, ?_⟩ <;> decide

/-- Claim C10 (amended): under full JavaScript lookup semantics the status
stored by `mapTorrentToTransfer` is never the string `processing`, and
every remote status string outside both the fixed translation table and
the `Object.prototype` property names maps to `queued`; but a remote
status colliding with an inherited `Object.prototype` key yields that
truthy non-string value instead of `queued`, and an own table key yields
its status, which is always among `queued`, `downloading`, `ready`,
`error`. -/
theorem c10_status_mapping_proto (t : RealDebridTorrent) :
    (∀ v, transferStatusJS t = StatusLookup.status v → v ≠ TransferStatus.processing) ∧
    (realDebridStatusTable.lookup t.status = none → t.status ∉ objectProtoKeys →
      transferStatusJS t = StatusLookup.status TransferStatus.queued) ∧
    (realDebridStatusTable.lookup t.status = none → t.status ∈ objectProtoKeys →
      transferStatusJS t = StatusLookup.protoValue t.status) ∧
    (∀ v, transferStatusJS t = StatusLookup.status v →
      v = TransferStatus.queued ∨ v = TransferStatus.downloading ∨
      v = TransferStatus.ready ∨ v = TransferStatus.error) := by
  have ht : transferStatusJS t = mapStatusJS t.status := rfl
  rcases hl : realDebridStatusTable.lookup t.status with _ | v0
  · have hjs : mapStatusJS t.status =
        if t.status ∈ objectProtoKeys then StatusLookup.protoValue t.status
        else StatusLookup.status TransferStatus.queued := by
      unfold mapStatusJS
      rw [hl]
    by_cases hp : t.status ∈ objectProtoKeys
    · rw [ht, hjs, if_pos hp]
      refine ⟨?_, ?_, ?_, ?_⟩
      · intro v h; cases h
      · intro _ hnotin; exact absurd hp hnotin
      · intro _ _; rfl
      · intro v h; cases h
    · rw [ht, hjs, if_neg hp]
      refine ⟨?_, ?_, ?_, ?_⟩
      · intro v h
        injection h with h2
        rw [← h2]
        intro hc; cases hc
      · intro _ _; rfl
      · intro _ hin; exact absurd hin hp
      · intro v h
        injection h with h2
        rw [← h2]
        simp
  · have hjs : mapStatusJS t.status = StatusLookup.status v0 := by
      unfold mapStatusJS
      rw [hl]
    have hv := lookup_status_table_cases hl
    rw [ht, hjs]
    refine ⟨?_, ?_, ?_, ?_⟩
    · intro v h
      injection h with h2
      rw [← h2]
      rcases hv with h1 | h1 | h1 | h1 <;> (rw [h1]; intro hc; cases hc)
    · intro hnone; cases hnone
    · intro hnone; cases hnone
    · intro v h
      injection h with h2
      rw [← h2]
      exact hv

/-- Claim C10 (witness): the remote status `processing` (outside both the
table and the prototype keys) maps to `queued`, while the prototype key
`valueOf` leaks the inherited value. -/
theorem c10_status_mapping_proto_witness :
    transferStatusJS
      { id := "P", filename := "f", hash := "00", bytes := 0, status := "processing",
        added := "", links := [], ended := none, progress := 0, files := none } =
      StatusLookup.status TransferStatus.queued ∧
    transferStatusJS
      { id := "V", filename := "f", hash := "00", bytes := 0, status := "valueOf",
        added := "", links := [], ended := none, progress := 0, files := none } =
      StatusLookup.protoValue "valueOf" :=
  ⟨(c10_status_mapping_proto
      { id := "P", filename := "f", hash := "00", bytes := 0, status := "processing",
        added := "", links := [], ended := none, progress := 0, files := none }).2.1
      rfl (by decide),
   (c10_status_mapping_proto
      { id := "V", filename := "f", hash := "00", bytes := 0, status := "valueOf",
        added := "", links := [], ended := none, progress := 0, files := none }).2.2.1
      rfl (by decide)⟩

/-- Claim C5: whenever `authenticate` fails — the API key is absent/empty,
or the remote account lookup fails — the resulting session state has its
token cleared, so any subsequent `checkStatus` in that session fails with
the not-authenticated error regardless of the remote's behaviour. -/
theorem c5_auth_failure_discards_session (st : RDState) (creds : DebridCredentials)
    (remote : Except String RealDebridUser) (e : String)
    (hfail : (authenticate st creds remote).2 = .error e) :
    ∀ remote2, checkStatus (authenticate st creds remote).1 remote2 =
      .error "Not authenticated with Real-Debrid" := by
  intro remote2
  unfold authenticate at hfail ⊢
  by_cases hk : jsTruthyStr creds.apiKey = false
  · rw [if_pos hk]
    simp [checkStatus, jsTruthyStr]
  · rw [if_neg hk] at hfail ⊢
    rcases remote with re | ru
    · simp [checkStatus, jsTruthyStr]
    · exact absurd hfail (by simp)

/-- Claim C5 (witness): after an authentication attempt whose remote account
lookup failed, `checkStatus` fails even against a healthy remote. -/
theorem c5_auth_failure_discards_session_witness :
    checkStatus
      (authenticate rdInit
        { apiKey := some "key", accessToken := none, refreshToken := none }
        (.error "rd: 503")).1
      (.ok { id := 7, username := "u", email := "u@x", premium := 1, expiration := "2030" }) =
      .error "Not authenticated with Real-Debrid" :=
  c5_auth_failure_discards_session rdInit
    { apiKey := some "key", accessToken := none, refreshToken := none }
    (.error "rd: 503") "rd: 503" rfl
    (.ok { id := 7, username := "u", email := "u@x", premium := 1, expiration := "2030" })

/-- Helper: `padStart(2, '0')` is exactly zero-padding to width two. -/
theorem padStart2_eq_pad (s : String) :
    padStart2 s = String.mk (List.replicate (2 - s.length) '0') ++ s := by
  unfold padStart2
  split
  · rename_i h
    have h0 : 2 - s.length = 0 := by omega
    rw [h0]
    cases s
    rfl
  · rfl

/-- Claim C7: for season and episode numbers ≥ 1, `searchEpisode` produces
exactly the candidates of `search` applied to the synthesized query with
zero-padded `S%02dE%02d` markers. -/
theorem c7_searchEpisode_refines_search (seriesName : String) (season episode : Nat)
    (_hs : 1 ≤ season) (_he : 1 ≤ episode) (remote : String → List LimeRow) :
    searchEpisode seriesName season episode remote =
      limeSearch (seriesName ++ " S" ++ sprintf02d season ++ "E" ++ sprintf02d episode)
        MediaType.series remote := by
  unfold searchEpisode episodeQuery sprintf02d
  rw [padStart2_eq_pad, padStart2_eq_pad]

/-- A remote returning no rows, fixing the environment of the C7 witness. -/
def c7RemoteW : String → List LimeRow := fun _ => []

/-- Claim C7 (witness): `searchEpisode("Foo", 2, 5)` is `search("Foo S02E05",
series)`. -/
theorem c7_searchEpisode_refines_search_witness :
    searchEpisode "Foo" 2 5 c7RemoteW = limeSearch "Foo S02E05" MediaType.series c7RemoteW := by
  have h := c7_searchEpisode_refines_search "Foo" 2 5 (by decide) (by decide) c7RemoteW
  have hq : ("Foo" ++ " S" ++ sprintf02d 2 ++ "E" ++ sprintf02d 5 : String) = "Foo S02E05" := by
    decide
  rw [hq] at h
  exact h

/-- A ready two-file transfer whose file ids are 1 and 2, used to exercise
the explicit-fileId path of `getStreamUrl`. -/
def c1Torrent : RealDebridTorrent :=
  { id := "T1", filename := "pack", hash := "00", bytes := 0, status := "downloaded",
    added := "", links := ["L0", "L1"], ended := none, progress := 100,
    files := some [{ id := 1, path := "a.mp4", bytes := 100, selected := 1 },
                   { id := 2, path := "b.mkv", bytes := 200, selected := 1 }] }

/-- Claim C1 (counterexample): an explicit `fileId` of `"99"` parses to `99`
and matches no file of the transfer, yet `getStreamUrl` does not fail — it
silently unrestricts the first link and returns its URL (one unrestrict
call), refuting "fails with `FileNotFoundError` when an explicit fileId
does not match any file". -/
theorem c1_counterexample :
    parseIntJS "99" = some 99 ∧
    (c1Torrent.files.getD []).all (fun f => decide (f.id ≠ 99)) = true ∧
    getStreamUrl (some "key") c1Torrent (some "99") = .unrestricted "L0" ∧
    unrestrictCallCount (getStreamUrl (some "key") c1Torrent (some "99")) = 1 := by
  refine ⟨by decide, by decide, ?_, ?_⟩ <;> rfl

/-- Claim C1 (amended): for an authenticated session, `getStreamUrl` fails
with the not-ready error when the remote transfer status is not
`downloaded` (= `ready`) and issues no unrestrict call there; it fails with
the no-links error when the transfer exposes zero links; in every other
case it returns a direct URL — in particular an explicit `fileId` matching
no file is silently ignored and the first link is unrestricted, so no
file-not-found failure exists. -/
theorem c1_getStreamUrl_failures (key : String) (hkey : key ≠ "")
    (t : RealDebridTorrent) (fileId : Option String) :
    (t.status ≠ "downloaded" →
      getStreamUrl (some key) t fileId = .notReady t.status ∧
      unrestrictCallCount (getStreamUrl (some key) t fileId) = 0) ∧
    (t.status = "downloaded" → t.links = [] →
      getStreamUrl (some key) t fileId = .noLinks) ∧
    (t.status = "downloaded" → ∀ l0 ls, t.links = l0 :: ls →
      (∃ l, getStreamUrl (some key) t fileId = .unrestricted l) ∧
      (jsTruthyStr fileId = true →
        (∀ f ∈ t.files.getD [], fileIdMatches (fileId.getD "") f = false) →
        getStreamUrl (some key) t fileId = .unrestricted l0)) := by
  have hk : jsTruthyStr (some key) = true := by simp [jsTruthyStr, hkey]
  refine ⟨fun hnr => ?_, fun hr hnil => ?_, fun hr l0 ls hcons => ?_⟩
  · constructor <;> simp [getStreamUrl, hk, hnr, unrestrictCallCount]
  · simp [getStreamUrl, hk, hr, hnil]
  · constructor
    · exact ⟨chooseLink t fileId l0, by simp [getStreamUrl, hk, hr, hcons]⟩
    · intro htruthy hnomatch
      have hchoose : chooseLink t fileId l0 = l0 := by
        unfold chooseLink
        rcases hfs : t.files with _ | fs
        · simp [hfs]
        · rw [if_pos ⟨htruthy, by simp [hfs]⟩]
          have hidx : fs.findIdx (fileIdMatches (fileId.getD "")) = fs.length := by
            refine findIdx_all_false _ (fun f hf => ?_)
            have := hnomatch f (by simp [hfs, hf])
            exact this
          simp only [Option.getD_some, hidx]
          simp
      simp [getStreamUrl, hk, hr, hcons, hchoose]

/-- A downloading (not ready) transfer for the C1 witness. -/
def c1TorrentW : RealDebridTorrent :=
  { id := "T2", filename := "f", hash := "00", bytes := 0, status := "downloading",
    added := "", links := [], ended := none, progress := 40, files := none }

/-- Claim C1 (witness): on a transfer still `downloading`, `getStreamUrl`
reports not-ready and performs no unrestrict call. -/
theorem c1_getStreamUrl_failures_witness :
    getStreamUrl (some "key") c1TorrentW none = .notReady "downloading" ∧
    unrestrictCallCount (getStreamUrl (some "key") c1TorrentW none) = 0 :=
  (c1_getStreamUrl_failures "key" (by decide) c1TorrentW none).1 (by decide)

/-! Helper lemmas for the `reduce`-style largest-video selection. -/

theorem largestVideoFile_mem (v0 : RealDebridFile) (vs : List RealDebridFile) :
    largestVideoFile v0 vs ∈ v0 :: vs := by
  unfold largestVideoFile
  induction vs generalizing v0 with
  | nil => simp
  | cons c cs ih =>
    simp only [List.foldl_cons]
    rcases List.mem_cons.mp (ih (if c.bytes > v0.bytes then c else v0)) with h | h
    · rw [h]
      split
      · exact List.mem_cons_of_mem v0 (List.mem_cons_self c cs)
      · exact List.mem_cons_self v0 (c :: cs)
    · exact List.mem_cons_of_mem v0 (List.mem_cons_of_mem c h)

theorem largestVideoFile_le (v0 : RealDebridFile) (vs : List RealDebridFile) :
    ∀ v ∈ v0 :: vs, v.bytes ≤ (largestVideoFile v0 vs).bytes := by
  unfold largestVideoFile
  induction vs generalizing v0 with
  | nil => simp
  | cons c cs ih =>
    intro v hv
    simp only [List.foldl_cons]
    have hstep : v0.bytes ≤ (if c.bytes > v0.bytes then c else v0).bytes ∧
        c.bytes ≤ (if c.bytes > v0.bytes then c else v0).bytes := by
      split <;> rename_i hb <;> constructor <;> omega
    rcases List.mem_cons.mp hv with h | h
    · subst h
      exact le_trans hstep.1 (ih _ _ (List.mem_cons_self _ cs))
    · rcases List.mem_cons.mp h with h2 | h2
      · subst h2
        exact le_trans hstep.2 (ih _ _ (List.mem_cons_self _ cs))
      · exact ih _ v (List.mem_cons_of_mem _ h2)

theorem getD_eq_of_lt {α : Type} (l : List α) (d1 d2 : α) {n : Nat} (h : n < l.length) :
    l.getD n d1 = l.getD n d2 := by
  rw [List.getD_eq_getElem l d1 h, List.getD_eq_getElem l d2 h]

/-- Claim C3: with more than one file and no explicit fileId, `getStreamUrl`
restricts to files whose name ends in one of the seven video extensions
(case-insensitively), unrestricts the link at the index of the
largest-by-bytes such file, and falls back to the first link when no file
matches.  (`t.links.length = fs.length` is the well-formedness of a
Real-Debrid `downloaded` torrent: one link per selected file.) -/
theorem c3_largest_video_selection (key : String) (hkey : key ≠ "")
    (t : RealDebridTorrent) (fs : List RealDebridFile)
    (hstatus : t.status = "downloaded") (hfiles : t.files = some fs)
    (hlen : 1 < fs.length) (hlinks : t.links.length = fs.length) :
    (fs.filter (fun f => isVideoPath f.path) = [] →
      getStreamUrl (some key) t none = .unrestricted (t.links.getD 0 "")) ∧
    (∀ v0 vs, fs.filter (fun f => isVideoPath f.path) = v0 :: vs →
      isVideoPath (largestVideoFile v0 vs).path = true ∧
      largestVideoFile v0 vs ∈ fs ∧
      (∀ v ∈ fs.filter (fun f => isVideoPath f.path),
        v.bytes ≤ (largestVideoFile v0 vs).bytes) ∧
      getStreamUrl (some key) t none =
        .unrestricted
          (t.links.getD (fs.findIdx (fun g => decide (g = largestVideoFile v0 vs))) "")) := by
  have hk : jsTruthyStr (some key) = true := by simp [jsTruthyStr, hkey]
  have hlpos : 0 < t.links.length := by omega
  obtain ⟨l0, ls, hcons⟩ : ∃ l0 ls, t.links = l0 :: ls := by
    rcases hL : t.links with _ | ⟨l0, ls⟩
    · rw [hL] at hlpos; simp at hlpos
    · exact ⟨l0, ls, rfl⟩
  have hgs : getStreamUrl (some key) t none = .unrestricted (chooseLink t none l0) := by
    simp [getStreamUrl, hk, hstatus, hcons]
  constructor
  · intro hempty
    rw [hgs, hcons]
    have hchoose : chooseLink t none l0 = l0 := by
      unfold chooseLink
      rw [if_neg (by simp [jsTruthyStr]), if_pos ⟨by simp [hfiles], by simp [hfiles]; omega⟩]
      simp [hfiles, hempty]
    rw [hchoose]
    rfl
  · intro v0 vs hfilter
    have hmemfilter : largestVideoFile v0 vs ∈ fs.filter (fun f => isVideoPath f.path) := by
      rw [hfilter]; exact largestVideoFile_mem v0 vs
    have hpair := List.mem_filter.mp hmemfilter
    have hmem : largestVideoFile v0 vs ∈ fs := hpair.1
    have hvid : isVideoPath (largestVideoFile v0 vs).path = true := by simpa using hpair.2
    have hidxlt : fs.findIdx (fun g => decide (g = largestVideoFile v0 vs)) < fs.length :=
      findIdx_eq_lt_of_mem hmem
    refine ⟨hvid, hmem, ?_, ?_⟩
    · intro v hv
      rw [hfilter] at hv
      exact largestVideoFile_le v0 vs v hv
    · rw [hgs]
      have hchoose : chooseLink t none l0 =
          t.links.getD (fs.findIdx (fun g => decide (g = largestVideoFile v0 vs))) l0 := by
        unfold chooseLink
        rw [if_neg (by simp [jsTruthyStr]), if_pos ⟨by simp [hfiles], by simp [hfiles]; omega⟩]
        simp only [hfiles, Option.getD_some, hfilter]
        rw [if_pos ⟨hidxlt, by omega⟩]
      rw [hchoose, getD_eq_of_lt t.links l0 "" (by omega)]

/-- The spec's example transfer: files `[{mp4, 500MB}, {nfo, 1KB},
{mkv, 1.2GB}]`. -/
def c3Torrent : RealDebridTorrent :=
  { id := "T3", filename := "pack", hash := "00", bytes := 0, status := "downloaded",
    added := "", links := ["l1", "l2", "l3"], ended := none, progress := 100,
    files := some [{ id := 1, path := "a.mp4", bytes := 524288000, selected := 1 },
                   { id := 2, path := "b.nfo", bytes := 1024, selected := 1 },
                   { id := 3, path := "c.mkv", bytes := 1288490189, selected := 1 }] }

/-- The file list of `c3Torrent`. -/
def c3Files : List RealDebridFile :=
  [{ id := 1, path := "a.mp4", bytes := 524288000, selected := 1 },
   { id := 2, path := "b.nfo", bytes := 1024, selected := 1 },
   { id := 3, path := "c.mkv", bytes := 1288490189, selected := 1 }]

/-- Claim C3 (witness): on the spec's example the `mkv` file (largest
video-extension match, third link) is selected. -/
theorem c3_largest_video_selection_witness :
    getStreamUrl (some "k") c3Torrent none = .unrestricted "l3" := by
  have h := (c3_largest_video_selection "k" (by decide) c3Torrent c3Files rfl rfl
      (by decide) (by decide)).2
      { id := 1, path := "a.mp4", bytes := 524288000, selected := 1 }
      [{ id := 3, path := "c.mkv", bytes := 1288490189, selected := 1 }]
      (by decide)
  exact h.2.2.2.trans (by decide)

/-! Lemmas about the stable descending insertion sort. -/

theorem mem_insertDesc {x y : TorrentResult} {l : List TorrentResult}
    (h : y ∈ insertDesc x l) : y = x ∨ y ∈ l := by
  induction l with
  | nil => simpa [insertDesc] using h
  | cons c cs ih =>
    unfold insertDesc at h
    split at h
    · rcases List.mem_cons.mp h with h1 | h2
      · exact Or.inl h1
      · exact Or.inr h2
    · rcases List.mem_cons.mp h with h1 | h2
      · exact Or.inr (h1 ▸ List.mem_cons_self c cs)
      · rcases ih h2 with h3 | h4
        · exact Or.inl h3
        · exact Or.inr (List.mem_cons_of_mem c h4)

theorem pairwise_insertDesc {x : TorrentResult} {l : List TorrentResult}
    (h : l.Pairwise (fun a b => b.seeders ≤ a.seeders)) :
    (insertDesc x l).Pairwise (fun a b => b.seeders ≤ a.seeders) := by
  induction l with
  | nil => simp [insertDesc]
  | cons c cs ih =>
    rcases List.pairwise_cons.mp h with ⟨hc, hcs⟩
    unfold insertDesc
    split
    · rename_i hge
      refine List.pairwise_cons.mpr ⟨?_, h⟩
      intro z hz
      rcases List.mem_cons.mp hz with h1 | h2
      · rw [h1]; omega
      · have := hc z h2; omega
    · rename_i hlt
      refine List.pairwise_cons.mpr ⟨?_, ih hcs⟩
      intro z hz
      rcases mem_insertDesc hz with h1 | h2
      · rw [h1]; omega
      · exact hc z h2

theorem pairwise_sortBySeedersDesc (l : List TorrentResult) :
    (sortBySeedersDesc l).Pairwise (fun a b => b.seeders ≤ a.seeders) := by
  unfold sortBySeedersDesc
  induction l with
  | nil => simp
  | cons c cs ih => simpa [List.foldr_cons] using pairwise_insertDesc ih

theorem filter_insertDesc (x : TorrentResult) (l : List TorrentResult) (s : Int) :
    (insertDesc x l).filter (fun r => r.seeders == s) =
      (x :: l).filter (fun r => r.seeders == s) := by
  induction l with
  | nil => rfl
  | cons c cs ih =>
    unfold insertDesc
    split
    · rfl
    · rename_i hlt
      simp only [List.filter_cons, ih]
      by_cases hx : x.seeders = s <;> by_cases hc : c.seeders = s
      · exfalso; omega
      · simp [hx, hc]
      · simp [hx, hc]
      · simp [hx, hc]

theorem filter_sortBySeedersDesc (l : List TorrentResult) (s : Int) :
    (sortBySeedersDesc l).filter (fun r => r.seeders == s) =
      l.filter (fun r => r.seeders == s) := by
  unfold sortBySeedersDesc
  induction l with
  | nil => rfl
  | cons c cs ih =>
    rw [List.foldr_cons, filter_insertDesc, List.filter_cons, List.filter_cons, ih]

/-- The fulfilled-only concatenation, written as the `flatMap` the claims
speak about. -/
theorem mergedSuccesses_eq_flatMap (scrapers : List ScraperSim) :
    mergedSuccesses scrapers =
      (scrapers.filter (·.enabled)).flatMap (fun sc =>
        match sc.result with
        | .ok v => v
        | .error _ => []) := by
  unfold mergedSuccesses
  induction scrapers.filter (·.enabled) with
  | nil => rfl
  | cons c cs ih =>
    rcases hres : c.result with e | v <;>
      simp_all [List.map_cons, List.filterMap_cons, Except.toOption, List.filterMap_map]

/-- Claim C2: the `torrent:search` aggregation fails only when zero Search
backends are enabled (returning no partial data), and otherwise never
raises — it returns the concatenation of the fulfilled backends' results
(in registration order, failed backends dropped), sorted. -/
theorem c2_searchAll_partial_failure (scrapers : List ScraperSim) :
    (scrapers.filter (·.enabled) = [] →
      torrentSearchHandler scrapers = .error "No scrapers available") ∧
    (scrapers.filter (·.enabled) ≠ [] →
      torrentSearchHandler scrapers =
        .ok (sortBySeedersDesc
          ((scrapers.filter (·.enabled)).flatMap (fun sc =>
            match sc.result with
            | .ok v => v
            | .error _ => [])))) := by
  constructor
  · intro h
    unfold torrentSearchHandler
    rw [h]
    rfl
  · intro h
    unfold torrentSearchHandler
    rw [if_neg (fun hh => h (List.length_eq_zero.mp hh)), mergedSuccesses_eq_flatMap]

/-- Three registered scrapers for the C2 witness: two fulfilled, one
rejected. -/
def c2Scrapers : List ScraperSim :=
  [{ enabled := true,
     result := .ok [{ id := "a", name := "A", size := JsNumber.nan, seeders := 3, leechers := 0,
                      magnetUri := "m:a", infoHash := "a", uploadDate := none,
                      quality := none, source := none, providerId := "p1" }] },
   { enabled := true, result := .error "p2: network down" },
   { enabled := true,
     result := .ok [{ id := "b", name := "B", size := JsNumber.nan, seeders := 7, leechers := 0,
                      magnetUri := "m:b", infoHash := "b", uploadDate := none,
                      quality := none, source := none, providerId := "p3" }] }]

/-- Claim C2 (witness): with two fulfilled scrapers and one throwing, the
handler succeeds with the sorted concatenation of the two successes; with
a single disabled scraper it fails with the no-backends error. -/
theorem c2_searchAll_partial_failure_witness :
    torrentSearchHandler c2Scrapers =
      .ok (sortBySeedersDesc
        ((c2Scrapers.filter (·.enabled)).flatMap (fun sc =>
          match sc.result with
          | .ok v => v
          | .error _ => []))) ∧
    torrentSearchHandler [{ enabled := false, result := .ok [] }] =
      .error "No scrapers available" :=
  ⟨(c2_searchAll_partial_failure c2Scrapers).2 (by decide),
   (c2_searchAll_partial_failure [{ enabled := false, result := .ok [] }]).1 rfl⟩

/-- Claim C6: every per-backend result list (`parseSearchResults`) and
every aggregated result list the handler returns is sorted descending by
seeder count, and in the aggregated list the candidates with any given
seeder count appear exactly in backend-registration/concatenation order
(stable tie-break: the first-enumerated backend's candidates precede later
backends' candidates of equal seeder count). -/
theorem c6_sorted_output (rows : List LimeRow) (scrapers : List ScraperSim)
    (out : List TorrentResult) (s : Int) :
    (∀ (i j : Fin (parseSearchResults rows).length), i < j →
      ((parseSearchResults rows).get j).seeders ≤ ((parseSearchResults rows).get i).seeders) ∧
    (torrentSearchHandler scrapers = .ok out →
      (∀ (i j : Fin out.length), i < j →
        (out.get j).seeders ≤ (out.get i).seeders) ∧
      out.filter (fun r => r.seeders == s) =
        (mergedSuccesses scrapers).filter (fun r => r.seeders == s)) := by
  constructor
  · have hpw : (parseSearchResults rows).Pairwise (fun a b => b.seeders ≤ a.seeders) := by
      unfold parseSearchResults
      exact pairwise_sortBySeedersDesc _
    exact List.pairwise_iff_get.mp hpw
  · intro hok
    unfold torrentSearchHandler at hok
    split at hok
    · cases hok
    · injection hok with hout
      subst hout
      exact ⟨List.pairwise_iff_get.mp (pairwise_sortBySeedersDesc _),
        filter_sortBySeedersDesc _ s⟩

/-- Scrapers for the C6 witness: the first and third backend both return a
candidate with 3 seeders. -/
def c6Scrapers : List ScraperSim :=
  [{ enabled := true,
     result := .ok [{ id := "a", name := "A", size := JsNumber.nan, seeders := 3, leechers := 0,
                      magnetUri := "m:a", infoHash := "a", uploadDate := none,
                      quality := none, source := none, providerId := "p1" }] },
   { enabled := true, result := .error "p2: network down" },
   { enabled := true,
     result := .ok [{ id := "b", name := "B", size := JsNumber.nan, seeders := 7, leechers := 0,
                      magnetUri := "m:b", infoHash := "b", uploadDate := none,
                      quality := none, source := none, providerId := "p3" },
                    { id := "c", name := "C", size := JsNumber.nan, seeders := 3, leechers := 0,
                      magnetUri := "m:c", infoHash := "c", uploadDate := none,
                      quality := none, source := none, providerId := "p3" }] }]

/-- The handler output on `c6Scrapers`: 7 first, then the two 3-seeder
candidates with the first-enumerated backend's candidate first. -/
def c6Out : List TorrentResult :=
  [{ id := "b", name := "B", size := JsNumber.nan, seeders := 7, leechers := 0,
     magnetUri := "m:b", infoHash := "b", uploadDate := none,
     quality := none, source := none, providerId := "p3" },
   { id := "a", name := "A", size := JsNumber.nan, seeders := 3, leechers := 0,
     magnetUri := "m:a", infoHash := "a", uploadDate := none,
     quality := none, source := none, providerId := "p1" },
   { id := "c", name := "C", size := JsNumber.nan, seeders := 3, leechers := 0,
     magnetUri := "m:c", infoHash := "c", uploadDate := none,
     quality := none, source := none, providerId := "p3" }]

/-- Claim C6 (witness): on `c6Scrapers` the aggregated output is sorted and
the 3-seeder tie keeps backend order (`p1` before `p3`). -/
theorem c6_sorted_output_witness :
    (∀ (i j : Fin c6Out.length), i < j →
      (c6Out.get j).seeders ≤ (c6Out.get i).seeders) ∧
    c6Out.filter (fun r => r.seeders == 3) =
      (mergedSuccesses c6Scrapers).filter (fun r => r.seeders == 3) :=
  (c6_sorted_output [] c6Scrapers c6Out 3).2 (by decide)

/-! Lemmas for the magnet round trip. -/

theorem strMkData (s : String) : String.mk s.data = s := by
  cases s
  rfl

theorem hexClass_ne_amp {c : Char} (h : hexClass c = true) : c ≠ '&' := by
  intro hc
  rw [hc] at h
  exact absurd h (by decide)

theorem chHasPfx_self_append (xs ys : List Char) : chHasPfx xs (xs ++ ys) = true := by
  induction xs with
  | nil => rfl
  | cons c cs ih => simp [chHasPfx, ih]

theorem splitAmp_append {xs : List Char} (r : List Char) (h : ∀ c ∈ xs, c ≠ '&') :
    splitAmp (xs ++ '&' :: r) = xs :: splitAmp r := by
  induction xs with
  | nil => simp [splitAmp]
  | cons c cs ih =>
    have hc : c ≠ '&' := h c (List.mem_cons_self c cs)
    simp only [List.cons_append, splitAmp, if_neg hc, List.append_eq]
    rw [ih (fun x hx => h x (List.mem_cons_of_mem c hx))]

theorem afterQuestion_magnet (X : List Char) :
    afterQuestion (['m', 'a', 'g', 'n', 'e', 't', ':', '?'] ++ X) = some X := by
  simp [afterQuestion]

/-- Claim C9: building a magnet URI from a 40-character hexadecimal content
hash `H` and any display name `N` and then parsing the URI's `xt` parameter
recovers `H` verbatim (hence also up to case-insensitive equality). -/
theorem c9_magnet_roundtrip (h n : String) (_hlen : h.length = 40)
    (hhex : ∀ c ∈ h.data, hexClass c = true) :
    parseXtParam (buildMagnetUri h n) = some h := by
  unfold buildMagnetUri parseXtParam
  have hlit : ("magnet:?xt=urn:btih:" : String).data =
      ['m', 'a', 'g', 'n', 'e', 't', ':', '?'] ++
        ['x', 't', '=', 'u', 'r', 'n', ':', 'b', 't', 'i', 'h', ':'] := rfl
  have hamp : ("&dn=" : String).data = '&' :: ['d', 'n', '='] := rfl
  have hdata : ("magnet:?xt=urn:btih:" ++ h ++ "&dn=" ++ encodeURIComponent n ++
      trackerQuery).data =
      ['m', 'a', 'g', 'n', 'e', 't', ':', '?'] ++
        ((['x', 't', '=', 'u', 'r', 'n', ':', 'b', 't', 'i', 'h', ':'] ++ h.data) ++
          '&' :: (['d', 'n', '='] ++ ((encodeURIComponent n).data ++ trackerQuery.data))) := by
    simp only [String.data_append, hlit, hamp]
    simp
  rw [hdata, afterQuestion_magnet]
  have hnoamp : ∀ c ∈ ['x', 't', '=', 'u', 'r', 'n', ':', 'b', 't', 'i', 'h', ':'] ++ h.data,
      c ≠ '&' := by
    intro c hc
    rcases List.mem_append.mp hc with h1 | h2
    · fin_cases h1 <;> decide
    · exact hexClass_ne_amp (hhex c h2)
  simp only [Option.some_bind]
  rw [splitAmp_append _ hnoamp]
  rw [List.find?_cons_of_pos _ (by simp [chHasPfx])]
  simp only [Option.some_bind]
  simp only [List.cons_append, List.drop_succ_cons, List.drop_zero]
  rw [if_pos (by simp [chHasPfx])]
  simp only [List.nil_append]

/-- Claim C9 (witness): a concrete 40-character hash survives the round
trip even with a display name full of URI metacharacters. -/
theorem c9_magnet_roundtrip_witness :
    parseXtParam (buildMagnetUri "aabbccddeeff00112233445566778899aabbccdd" "My Movie & Co?") =
      some "aabbccddeeff00112233445566778899aabbccdd" :=
  c9_magnet_roundtrip "aabbccddeeff00112233445566778899aabbccdd" "My Movie & Co?"
    (by decide) (by decide)

/-! Lemmas for the size parser. -/

theorem wsNotSizeClass {c : Char} (h : c.isWhitespace = true) : sizeClass c = false := by
  simp [Char.isWhitespace] at h
  rcases h with ((h | h) | h) | h <;> subst h <;> decide

theorem digitSizeClass {c : Char} (h : c.isDigit = true) : sizeClass c = true := by
  simp [sizeClass, h]

theorem takeWhile_sizeClass_sp_unit (sp : List Char) (u1 u2 : Char)
    (hsp : ∀ c ∈ sp, c.isWhitespace = true) (hu1 : sizeClass u1 = false) :
    (sp ++ [u1, u2]).takeWhile sizeClass = [] := by
  cases sp with
  | nil => simp [List.takeWhile_cons, hu1]
  | cons w ws =>
    simp [List.takeWhile_cons, wsNotSizeClass (hsp w (List.mem_cons_self w ws))]

theorem dropWhile_sizeClass_sp_unit (sp : List Char) (u1 u2 : Char)
    (hsp : ∀ c ∈ sp, c.isWhitespace = true) (hu1 : sizeClass u1 = false) :
    (sp ++ [u1, u2]).dropWhile sizeClass = sp ++ [u1, u2] := by
  cases sp with
  | nil => simp [List.dropWhile_cons, hu1]
  | cons w ws =>
    simp [List.dropWhile_cons, wsNotSizeClass (hsp w (List.mem_cons_self w ws))]

/-- Every unit multiplier the table yields is at least one. -/
theorem one_le_unitMult {u : String} {m : ℚ} (h : unitMult u = some m) : (1 : ℚ) ≤ m := by
  unfold unitMult at h
  repeat' split at h
  all_goals first
    | (injection h with h2; rw [← h2]; norm_num)
    | cases h

/-- Computation rule for `roundToDouble` in the round-down (or exact)
case: if `q` lies in the binade `[2^z, 2^(z+1))` with `z` above the
subnormal range and the scaled significand `q * 2^(52-z)` has integer part
`n` and fractional part below one half, the nearest double is
`n * 2^(z-52)`. -/
theorem roundToDouble_eq_down (q : ℚ) (z n : Int) (hq : 0 < q)
    (h1 : (2 : ℚ) ^ z ≤ q) (h2 : q < (2 : ℚ) ^ (z + 1)) (hz : -1022 ≤ z)
    (hn1 : (n : ℚ) ≤ q * (2 : ℚ) ^ ((52 : Int) - z))
    (hn2 : q * (2 : ℚ) ^ ((52 : Int) - z) - (n : ℚ) < 1 / 2) :
    roundToDouble q = (n : ℚ) * (2 : ℚ) ^ (z - (52 : Int)) := by
  unfold roundToDouble
  rw [if_neg (not_le.mpr hq)]
  have hb : (1 : ℕ) < 2 := by norm_num
  have hlog : Int.log 2 q = z := by
    have ha : z ≤ Int.log 2 q := (Int.zpow_le_iff_le_log hb hq).mp (by exact_mod_cast h1)
    have hc : Int.log 2 q < z + 1 := (Int.lt_zpow_iff_log_lt hb hq).mp (by exact_mod_cast h2)
    omega
  rw [hlog, show max (z - 52) (-1074 : Int) = z - 52 from by omega]
  have hx : q / (2 : ℚ) ^ (z - 52 : Int) = q * (2 : ℚ) ^ ((52 : Int) - z) := by
    rw [div_eq_mul_inv, ← zpow_neg, show -(z - 52) = (52 : Int) - z from by ring]
  show (roundHalfEven (q / (2 : ℚ) ^ (z - 52 : Int)) : ℚ) * (2 : ℚ) ^ (z - 52 : Int) =
    (n : ℚ) * (2 : ℚ) ^ (z - (52 : Int))
  rw [hx]
  have hfl : ⌊q * (2 : ℚ) ^ ((52 : Int) - z)⌋ = n :=
    Int.floor_eq_iff.mpr ⟨hn1, by linarith⟩
  have hrhe : roundHalfEven (q * (2 : ℚ) ^ ((52 : Int) - z)) = n := by
    unfold roundHalfEven
    rw [hfl, if_pos (by linarith)]
  rw [hrhe]

/-- `0.3` rounds to the binary64 value `5404319552844595 / 2^54`, which is
strictly below `3/10`. -/
theorem roundToDouble_three_tenths :
    roundToDouble (3 / 10) = (5404319552844595 : ℚ) * (2 : ℚ) ^ ((-2 : Int) - 52) :=
  roundToDouble_eq_down (3 / 10) (-2) 5404319552844595 (by norm_num) (by norm_num)
    (by norm_num) (by norm_num) (by norm_num) (by norm_num)

/-- `1.5` is exactly representable as a binary64 double. -/
theorem roundToDouble_three_halves : roundToDouble (3 / 2) = 3 / 2 := by
  rw [roundToDouble_eq_down (3 / 2) 0 6755399441055744 (by norm_num) (by norm_num)
    (by norm_num) (by norm_num) (by norm_num) (by norm_num)]
  rw [show (0 : Int) - 52 = -52 from rfl, zpow_neg]
  norm_num

/-- `700` is exactly representable as a binary64 double. -/
theorem roundToDouble_seven_hundred : roundToDouble 700 = 700 := by
  rw [roundToDouble_eq_down 700 9 6157265115545600 (by norm_num) (by norm_num)
    (by norm_num) (by norm_num) (by norm_num) (by norm_num)]
  rw [show (9 : Int) - 52 = -43 from rfl, zpow_neg]
  norm_num

/-- Claim C8 (amended): on a size string made of a decimal number (integer
part `ip`, optional fractional part `fp`), optional whitespace and one of
the four unit suffixes in any letter case, `parseSize` yields the binary64
rounding of the number's exact decimal value, times the binary
(1024-based) multiplier of the unit (the power-of-two scaling itself is
exact); whenever the decimal value is exactly representable as a double
(and no overflow occurs) this equals the exact value-times-multiplier
product of the original claim. -/
theorem c8_parseSize_rounds_to_double (ip fp sp : List Char) (u1 u2 : Char) (m : ℚ)
    (hip : ip ≠ []) (hipd : ∀ c ∈ ip, c.isDigit = true)
    (hfpd : ∀ c ∈ fp, c.isDigit = true) (hsp : ∀ c ∈ sp, c.isWhitespace = true)
    (hu : unitMult (String.mk [u1.toUpper, u2.toUpper]) = some m)
    (hu1s : sizeClass u1 = false) (hu1w : u1.isWhitespace = false) :
    parseSize (String.mk ((ip ++ (if fp = [] then [] else '.' :: fp)) ++ sp ++ [u1, u2])) =
      mulPow1024 (parseFloatJS (ip ++ (if fp = [] then [] else '.' :: fp))) m ∧
    decimalValueQ (ip ++ (if fp = [] then [] else '.' :: fp)) =
      some ((decimalValueQ.digitsNatVal ip : ℚ) +
        (decimalValueQ.digitsNatVal fp : ℚ) / 10 ^ fp.length) ∧
    (roundToDouble ((decimalValueQ.digitsNatVal ip : ℚ) +
        (decimalValueQ.digitsNatVal fp : ℚ) / 10 ^ fp.length) =
        (decimalValueQ.digitsNatVal ip : ℚ) +
          (decimalValueQ.digitsNatVal fp : ℚ) / 10 ^ fp.length →
      ((decimalValueQ.digitsNatVal ip : ℚ) +
        (decimalValueQ.digitsNatVal fp : ℚ) / 10 ^ fp.length) * m < 2 ^ 1024 →
      parseSize (String.mk ((ip ++ (if fp = [] then [] else '.' :: fp)) ++ sp ++ [u1, u2])) =
        JsNumber.finite (((decimalValueQ.digitsNatVal ip : ℚ) +
          (decimalValueQ.digitsNatVal fp : ℚ) / 10 ^ fp.length) * m)) := by
  obtain ⟨i0, ip', rfl⟩ : ∃ i0 ip', ip = i0 :: ip' := by
    rcases ip with _ | ⟨a, b⟩
    · exact absurd rfl hip
    · exact ⟨a, b, rfl⟩
  have hi0 : i0.isDigit = true := hipd i0 (List.mem_cons_self i0 ip')
  have hip'd : ∀ c ∈ ip', c.isDigit = true := fun c hc => hipd c (List.mem_cons_of_mem i0 hc)
  have hmu : matchUnit [u1, u2] = some m := by simpa [matchUnit] using hu
  have hspu : ((sp ++ [u1, u2]).dropWhile Char.isWhitespace) = [u1, u2] := by
    rw [dropWhile_append_all Char.isWhitespace [u1, u2] hsp]
    simp [List.dropWhile_cons, hu1w]
  have hdotfpd : ∀ c ∈ (if fp = [] then [] else '.' :: fp), sizeClass c = true := by
    split
    · intro c hc; cases hc
    · intro c hc
      rcases List.mem_cons.mp hc with h1 | h2
      · rw [h1]; decide
      · exact digitSizeClass (hfpd c h2)
  have hnumd : ∀ c ∈ ip' ++ (if fp = [] then [] else '.' :: fp), sizeClass c = true := by
    intro c hc
    rcases List.mem_append.mp hc with h1 | h2
    · exact digitSizeClass (hip'd c h1)
    · exact hdotfpd c h2
  -- the regex matches at position 0 with capture `ip ++ dotfp`
  have htm : tryMatchAt ((i0 :: ip' ++ (if fp = [] then [] else '.' :: fp)) ++ sp ++ [u1, u2]) =
      some ((i0 :: ip' ++ (if fp = [] then [] else '.' :: fp)), m) := by
    have hshape : ((i0 :: ip' ++ (if fp = [] then [] else '.' :: fp)) ++ sp ++ [u1, u2]) =
        i0 :: ((ip' ++ (if fp = [] then [] else '.' :: fp)) ++ (sp ++ [u1, u2])) := by
      simp
    rw [hshape]
    simp only [tryMatchAt]
    rw [if_pos (digitSizeClass hi0)]
    rw [takeWhile_append_all sizeClass (sp ++ [u1, u2]) hnumd,
      takeWhile_sizeClass_sp_unit sp u1 u2 hsp hu1s,
      dropWhile_append_all sizeClass (sp ++ [u1, u2]) hnumd,
      dropWhile_sizeClass_sp_unit sp u1 u2 hsp hu1s, hspu, hmu]
    simp
  have hfsm : findSizeMatch ((i0 :: ip' ++ (if fp = [] then [] else '.' :: fp)) ++ sp ++ [u1, u2]) =
      some ((i0 :: ip' ++ (if fp = [] then [] else '.' :: fp)), m) := by
    have hshape : ((i0 :: ip' ++ (if fp = [] then [] else '.' :: fp)) ++ sp ++ [u1, u2]) =
        i0 :: ((ip' ++ (if fp = [] then [] else '.' :: fp)) ++ (sp ++ [u1, u2])) := by
      simp
    rw [hshape] at htm ⊢
    simp only [findSizeMatch]
    rw [htm]
  have hpf : decimalValueQ (i0 :: ip' ++ (if fp = [] then [] else '.' :: fp)) =
      some ((decimalValueQ.digitsNatVal (i0 :: ip') : ℚ) +
        (decimalValueQ.digitsNatVal fp : ℚ) / 10 ^ fp.length) := by
    rcases fp with _ | ⟨f0, fp'⟩
    · rw [show (i0 :: ip' ++ (if ([] : List Char) = [] then [] else '.' :: [])) = i0 :: ip' from
        by simp]
      unfold decimalValueQ
      rw [takeWhile_all Char.isDigit hipd, dropWhile_all Char.isDigit hipd]
      simp [show decimalValueQ.digitsNatVal [] = 0 from rfl]
    · rw [show (i0 :: ip' ++ (if (f0 :: fp' : List Char) = [] then [] else '.' :: f0 :: fp')) =
        (i0 :: ip') ++ ('.' :: f0 :: fp') from by simp]
      unfold decimalValueQ
      rw [takeWhile_append_all Char.isDigit ('.' :: f0 :: fp') hipd,
        dropWhile_append_all Char.isDigit ('.' :: f0 :: fp') hipd]
      simp [takeWhile_all Char.isDigit hfpd, List.takeWhile_cons, List.dropWhile_cons,
        show ('.' : Char).isDigit = false from rfl]
  have hd : (String.mk ((i0 :: ip' ++ (if fp = [] then [] else '.' :: fp)) ++ sp ++ [u1, u2])).data =
      (i0 :: ip' ++ (if fp = [] then [] else '.' :: fp)) ++ sp ++ [u1, u2] := rfl
  have hps : parseSize
      (String.mk ((i0 :: ip' ++ (if fp = [] then [] else '.' :: fp)) ++ sp ++ [u1, u2])) =
      mulPow1024 (parseFloatJS (i0 :: ip' ++ (if fp = [] then [] else '.' :: fp))) m := by
    unfold parseSize
    rw [hd, hfsm]
  refine ⟨hps, hpf, fun hrep hnof => ?_⟩
  have hm1 : (1 : ℚ) ≤ m := one_le_unitMult hu
  have hdv0 : (0 : ℚ) ≤ (decimalValueQ.digitsNatVal (i0 :: ip') : ℚ) +
      (decimalValueQ.digitsNatVal fp : ℚ) / 10 ^ fp.length :=
    add_nonneg (Nat.cast_nonneg _)
      (div_nonneg (Nat.cast_nonneg _) (pow_nonneg (by norm_num) _))
  have hlt : (decimalValueQ.digitsNatVal (i0 :: ip') : ℚ) +
      (decimalValueQ.digitsNatVal fp : ℚ) / 10 ^ fp.length < 2 ^ 1024 :=
    calc (decimalValueQ.digitsNatVal (i0 :: ip') : ℚ) +
        (decimalValueQ.digitsNatVal fp : ℚ) / 10 ^ fp.length
        = ((decimalValueQ.digitsNatVal (i0 :: ip') : ℚ) +
          (decimalValueQ.digitsNatVal fp : ℚ) / 10 ^ fp.length) * 1 := (mul_one _).symm
      _ ≤ ((decimalValueQ.digitsNatVal (i0 :: ip') : ℚ) +
          (decimalValueQ.digitsNatVal fp : ℚ) / 10 ^ fp.length) * m :=
        mul_le_mul_of_nonneg_left hm1 hdv0
      _ < 2 ^ 1024 := hnof
  have hpfj : parseFloatJS (i0 :: ip' ++ (if fp = [] then [] else '.' :: fp)) =
      JsNumber.finite ((decimalValueQ.digitsNatVal (i0 :: ip') : ℚ) +
        (decimalValueQ.digitsNatVal fp : ℚ) / 10 ^ fp.length) := by
    unfold parseFloatJS
    rw [hpf]
    simp only [hrep]
    rw [if_neg (not_le.mpr hlt)]
  rw [hps, hpfj]
  simp only [mulPow1024]
  rw [if_neg (not_le.mpr hnof)]

/-- Claim C8 (counterexample): `"0.3 KB"` does not parse to the exact
product `0.3 × 1024` — `parseFloat` rounds `0.3` to the nearest binary64
double `5404319552844595/2^54`, so the parsed size is
`5404319552844595/2^44 ≠ 0.3 × 1024`, refuting the claim's universal
exactness. -/
theorem c8_counterexample :
    parseSize "0.3 KB" = JsNumber.finite ((5404319552844595 : ℚ) / 2 ^ 44) ∧
    (5404319552844595 : ℚ) / 2 ^ 44 ≠ (3 / 10) * 1024 := by
  constructor
  · have hfsm : findSizeMatch ("0.3 KB".data) = some (['0', '.', '3'], 1024) := by decide
    have hdv : decimalValueQ ['0', '.', '3'] = some ((3 : ℚ) / 10) := by
      unfold decimalValueQ
      rw [show List.takeWhile Char.isDigit ['0', '.', '3'] = ['0'] from rfl,
        show List.dropWhile Char.isDigit ['0', '.', '3'] = ['.', '3'] from rfl]
      norm_num
      rw [show List.takeWhile Char.isDigit ['3'] = ['3'] from rfl,
        show decimalValueQ.digitsNatVal ['3'] = 3 from rfl,
        show decimalValueQ.digitsNatVal ['0'] = 0 from rfl]
      norm_num
    have hpfj : parseFloatJS ['0', '.', '3'] =
        JsNumber.finite ((5404319552844595 : ℚ) * (2 : ℚ) ^ ((-2 : Int) - 52)) := by
      unfold parseFloatJS
      rw [hdv]
      simp only [roundToDouble_three_tenths]
      rw [if_neg (by rw [show ((-2 : Int) - 52) = -54 from rfl, zpow_neg]; norm_num)]
    unfold parseSize
    rw [hfsm]
    show mulPow1024 (parseFloatJS ['0', '.', '3']) 1024 = _
    rw [hpfj]
    simp only [mulPow1024]
    rw [if_neg (by rw [show ((-2 : Int) - 52) = -54 from rfl, zpow_neg]; norm_num)]
    rw [show ((-2 : Int) - 52) = -54 from rfl, zpow_neg]
    norm_num
  · norm_num

/-- Claim C8 (witness): `1.5` and `700` are exactly representable as
doubles, so `"1.5 GB"` parses to exactly `1.5 × 1024³` bytes and
`"700 MB"` to exactly `700 × 1024²` bytes. -/
theorem c8_parseSize_rounds_to_double_witness :
    parseSize "1.5 GB" = JsNumber.finite ((3 : ℚ) / 2 * 1024 ^ 3) ∧
    parseSize "700 MB" = JsNumber.finite ((700 : ℚ) * 1024 ^ 2) := by
  constructor
  · have h := c8_parseSize_rounds_to_double ['1'] ['5'] [' '] 'G' 'B' (1024 ^ 3)
      (by decide) (by decide) (by decide) (by decide) rfl rfl rfl
    have hdv : (decimalValueQ.digitsNatVal ['1'] : ℚ) +
        (decimalValueQ.digitsNatVal ['5'] : ℚ) / 10 ^ (['5'] : List Char).length = 3 / 2 := by
      rw [show decimalValueQ.digitsNatVal ['1'] = 1 from rfl,
        show decimalValueQ.digitsNatVal ['5'] = 5 from rfl]
      norm_num
    have h3 := h.2.2 (by rw [hdv]; exact roundToDouble_three_halves) (by rw [hdv]; norm_num)
    rw [hdv] at h3
    rw [show ("1.5 GB" : String) = String.mk ((['1'] ++ (if (['5'] : List Char) = [] then []
      else '.' :: ['5'])) ++ [' '] ++ ['G', 'B']) from rfl]
    exact h3
  · have h := c8_parseSize_rounds_to_double ['7', '0', '0'] [] [' '] 'M' 'B' (1024 ^ 2)
      (by decide) (by decide) (by decide) (by decide) rfl rfl rfl
    have hdv : (decimalValueQ.digitsNatVal ['7', '0', '0'] : ℚ) +
        (decimalValueQ.digitsNatVal [] : ℚ) / 10 ^ ([] : List Char).length = 700 := by
      rw [show decimalValueQ.digitsNatVal ['7', '0', '0'] = 700 from rfl,
        show decimalValueQ.digitsNatVal [] = 0 from rfl]
      norm_num
    have h3 := h.2.2 (by rw [hdv]; exact roundToDouble_seven_hundred) (by rw [hdv]; norm_num)
    rw [hdv] at h3
    rw [show ("700 MB" : String) = String.mk ((['7', '0', '0'] ++
      (if ([] : List Char) = [] then [] else '.' :: [])) ++ [' '] ++ ['M', 'B']) from rfl]
    exact h3

end AstraPlay
